import Mathlib

/-!
Verification of the watch-monitor program: a shallow embedding of the
identity hasher (`WatchListing::generate_composite_id`), the text
normalizers (`clean_text`, `get_condition_display`), the fetch/retry
engine (`fetch_with_retry`), the seen-store (`SqliteStorage`), the site
enumeration (`Site::key` / `Site::from_key`), and the orchestrator's
per-site listing loop (`main`), together with proofs and refutations of
the specification's claims about them.
-/

namespace WatchMonitor

/-! ## Character and string primitives

Models of the Rust standard-library string operations used by the
program: `char::is_whitespace` (the Unicode White_Space property),
`str::to_lowercase` (restricted to ASCII letters, the only cased
characters appearing in the fields under study), `str::trim`,
`str::replace(' ', "")` and `str::split_whitespace`. -/

/-- Model of Rust `char::is_whitespace`: the Unicode White_Space code points. -/
def isRustWhitespace (c : Char) : Bool :=
  [0x09, 0x0A, 0x0B, 0x0C, 0x0D, 0x20, 0x85, 0xA0, 0x1680,
   0x2000, 0x2001, 0x2002, 0x2003, 0x2004, 0x2005, 0x2006, 0x2007,
   0x2008, 0x2009, 0x200A, 0x2028, 0x2029, 0x202F, 0x205F, 0x3000].contains c.toNat

/-- Model of Rust `char::to_lowercase`, restricted to ASCII letters. -/
def lowerChar (c : Char) : Char :=
  if 65 ≤ c.toNat ∧ c.toNat ≤ 90 then Char.ofNat (c.toNat + 32) else c

/-- Model of Rust `str::to_lowercase` (ASCII letters). -/
def lowerStr (s : String) : String := String.mk (s.toList.map lowerChar)

/-- Strip leading and trailing whitespace from a character list. -/
def trimChars (l : List Char) : List Char :=
  ((l.dropWhile isRustWhitespace).reverse.dropWhile isRustWhitespace).reverse

/-- Model of Rust `str::trim`. -/
def trimStr (s : String) : String := String.mk (trimChars s.toList)

/-- Model of Rust `str::replace(' ', "")`: remove every U+0020 character. -/
def removeSpaces (s : String) : String :=
  String.mk (s.toList.filter (fun c => c ≠ ' '))

/-- Count occurrences of a character in a string (Rust `s.matches(c).count()`). -/
def countChar (s : String) (c : Char) : Nat := s.toList.count c

/-! ## MD5

Executable MD5 (RFC 1321), the digest used by `generate_composite_id`
via the `md5` crate; `format!("{:x}", digest)` prints the sixteen digest
bytes as lowercase hex. Words are `Nat` reduced modulo `2^32`. -/

def M32 : Nat := 4294967296

/-- Rotate a 32-bit word left by `n` bits. -/
def rotl32 (x n : Nat) : Nat :=
  ((x <<< n) % M32) ||| (x >>> (32 - n))

/-- MD5 per-round shift amounts. -/
def md5S : List Nat :=
  [7, 12, 17, 22, 7, 12, 17, 22, 7, 12, 17, 22, 7, 12, 17, 22,
   5, 9, 14, 20, 5, 9, 14, 20, 5, 9, 14, 20, 5, 9, 14, 20,
   4, 11, 16, 23, 4, 11, 16, 23, 4, 11, 16, 23, 4, 11, 16, 23,
   6, 10, 15, 21, 6, 10, 15, 21, 6, 10, 15, 21, 6, 10, 15, 21]

/-- MD5 sine-derived constants `T[i] = floor(2^32 * |sin(i+1)|)`. -/
def md5K : List Nat :=
  [0xd76aa478, 0xe8c7b756, 0x242070db, 0xc1bdceee,
   0xf57c0faf, 0x4787c62a, 0xa8304613, 0xfd469501,
   0x698098d8, 0x8b44f7af, 0xffff5bb1, 0x895cd7be,
   0x6b901122, 0xfd987193, 0xa679438e, 0x49b40821,
   0xf61e2562, 0xc040b340, 0x265e5a51, 0xe9b6c7aa,
   0xd62f105d, 0x02441453, 0xd8a1e681, 0xe7d3fbc8,
   0x21e1cde6, 0xc33707d6, 0xf4d50d87, 0x455a14ed,
   0xa9e3e905, 0xfcefa3f8, 0x676f02d9, 0x8d2a4c8a,
   0xfffa3942, 0x8771f681, 0x6d9d6122, 0xfde5380c,
   0xa4beea44, 0x4bdecfa9, 0xf6bb4b60, 0xbebfbc70,
   0x289b7ec6, 0xeaa127fa, 0xd4ef3085, 0x04881d05,
   0xd9d4d039, 0xe6db99e5, 0x1fa27cf8, 0xc4ac5665,
   0xf4292244, 0x432aff97, 0xab9423a7, 0xfc93a039,
   0x655b59c3, 0x8f0ccc92, 0xffeff47d, 0x85845dd1,
   0x6fa87e4f, 0xfe2ce6e0, 0xa3014314, 0x4e0811a1,
   0xf7537e82, 0xbd3af235, 0x2ad7d2bb, 0xeb86d391]

/-- The MD5 mixing function and message-word index for round `i`. -/
def md5FG (i b c d : Nat) : Nat × Nat :=
  if i < 16 then ((b &&& c) ||| ((b ^^^ (M32 - 1)) &&& d), i)
  else if i < 32 then ((d &&& b) ||| ((d ^^^ (M32 - 1)) &&& c), (5 * i + 1) % 16)
  else if i < 48 then (b ^^^ c ^^^ d, (3 * i + 5) % 16)
  else (c ^^^ (b ||| (d ^^^ (M32 - 1))), (7 * i) % 16)

/-- One MD5 round on state `(a, b, c, d)` with message schedule `m`. -/
def md5Step (m : Nat → Nat) (st : Nat × Nat × Nat × Nat) (i : Nat) :
    Nat × Nat × Nat × Nat :=
  match st with
  | (a, b, c, d) =>
    match md5FG i b c d with
    | (f, g) =>
      let f2 := (f + a + md5K.getD i 0 + m g) % M32
      (d, (b + rotl32 f2 (md5S.getD i 0)) % M32, b, c)

/-- Process one 64-byte chunk. -/
def md5Chunk (st : Nat × Nat × Nat × Nat) (chunk : List Nat) :
    Nat × Nat × Nat × Nat :=
  let m := fun j => chunk.getD (4 * j) 0 + 256 * chunk.getD (4 * j + 1) 0 +
    65536 * chunk.getD (4 * j + 2) 0 + 16777216 * chunk.getD (4 * j + 3) 0
  match (List.range 64).foldl (md5Step m) st, st with
  | (a, b, c, d), (a0, b0, c0, d0) =>
    ((a + a0) % M32, (b + b0) % M32, (c + c0) % M32, (d + d0) % M32)

/-- MD5 padding: a 0x80 byte, zeros to 56 mod 64, then the 64-bit
little-endian bit length. -/
def md5Pad (msg : List Nat) : List Nat :=
  let len := msg.length
  let zeros := (119 - len % 64) % 64
  msg ++ [128] ++ List.replicate zeros 0 ++
    (List.range 8).map (fun i => ((len * 8) >>> (8 * i)) % 256)

/-- Split a byte list into 64-byte chunks (fuel-based structural
recursion; `fuel ≥ l.length` always suffices since each step consumes at
least one byte). -/
def chunks64Go : Nat → List Nat → List (List Nat)
  | _, [] => []
  | 0, l => [l]
  | fuel + 1, b :: rest => ((b :: rest).take 64) :: chunks64Go fuel (rest.drop 63)

/-- Split a byte list into 64-byte chunks. -/
def chunks64 (l : List Nat) : List (List Nat) := chunks64Go l.length l

/-- The four bytes of a 32-bit word, little-endian. -/
def wordLEBytes (w : Nat) : List Nat :=
  [w % 256, (w >>> 8) % 256, (w >>> 16) % 256, (w >>> 24) % 256]

/-- The sixteen MD5 digest bytes of a byte message. -/
def md5Bytes (msg : List Nat) : List Nat :=
  match (chunks64 (md5Pad msg)).foldl md5Chunk
    (0x67452301, 0xefcdab89, 0x98badcfe, 0x10325476) with
  | (a, b, c, d) => wordLEBytes a ++ wordLEBytes b ++ wordLEBytes c ++ wordLEBytes d

/-- Lowercase hex digit. -/
def hexDigitChar (n : Nat) : Char := "0123456789abcdef".toList.getD n '0'

/-- Two lowercase hex characters for one byte. -/
def byteToHex (b : Nat) : List Char := [hexDigitChar (b / 16), hexDigitChar (b % 16)]

/-- UTF-8 encoding of one character. -/
def utf8Bytes (c : Char) : List Nat :=
  let n := c.toNat
  if n < 128 then [n]
  else if n < 2048 then [192 ||| (n >>> 6), 128 ||| (n &&& 63)]
  else if n < 65536 then
    [224 ||| (n >>> 12), 128 ||| ((n >>> 6) &&& 63), 128 ||| (n &&& 63)]
  else
    [240 ||| (n >>> 18), 128 ||| ((n >>> 12) &&& 63),
     128 ||| ((n >>> 6) &&& 63), 128 ||| (n &&& 63)]

/-- UTF-8 bytes of a string (Rust `str::as_bytes`). -/
def strBytes (s : String) : List Nat := (s.toList.map utf8Bytes).flatten

/-- Lowercase-hex MD5 digest of a string, as produced by
`format!("{:x}", md5::Context::consume)` in `generate_composite_id`. -/
def md5HexOfString (s : String) : String :=
  String.mk (((md5Bytes (strBytes s)).map byteToHex).flatten)

/-! ## Data model (`src/models/watch.rs`, `src/models/mod.rs`) -/

/-- The unknown-value sentinel `EMOJI_QUESTION` from `models/mod.rs`. -/
def EMOJI_QUESTION : String := "❓"

/-- `BoxStatus` from `models/watch.rs`. -/
inductive BoxStatus
  | yes
  | no
  | unknown
deriving DecidableEq

/-- `PapersStatus` from `models/watch.rs`. -/
inductive PapersStatus
  | yes
  | no
  | unknown
deriving DecidableEq

/-- `WatchListing` from `models/watch.rs`. -/
structure WatchListing where
  brand : String
  model : String
  reference : String
  year : String
  price_eur_display : String
  price_eur_raw_for_hash : String
  price_usd_raw_for_hash : Option String
  papers_status : PapersStatus
  box_status : BoxStatus
  condition_display : String
  case_material : String
  diameter : String
  title : String
  watch_url : String
  image_url : String
  site_name : String
deriving DecidableEq

/-- `impl Default for WatchListing`. -/
def WatchListing.default : WatchListing :=
  { brand := EMOJI_QUESTION
    model := EMOJI_QUESTION
    reference := EMOJI_QUESTION
    year := EMOJI_QUESTION
    price_eur_display := EMOJI_QUESTION
    price_eur_raw_for_hash := ""
    price_usd_raw_for_hash := none
    papers_status := .unknown
    box_status := .unknown
    condition_display := EMOJI_QUESTION
    case_material := EMOJI_QUESTION
    diameter := EMOJI_QUESTION
    title := EMOJI_QUESTION
    watch_url := ""
    image_url := ""
    site_name := "" }

/-! ## Identity hasher (`WatchListing::generate_composite_id`)

Each `let` binding of the Rust function becomes a named definition so
the theorems can speak about the intermediate values; `generate_composite_id`
composes them exactly as the source does. -/

namespace WatchListing

/-- `self.brand.to_lowercase().trim().to_string()`. -/
def brandNorm (w : WatchListing) : String := trimStr (lowerStr w.brand)

/-- `self.model.to_lowercase().trim().to_string()`. -/
def modelNorm (w : WatchListing) : String := trimStr (lowerStr w.model)

/-- `self.reference.to_lowercase().replace(' ', "")`. -/
def refNorm (w : WatchListing) : String := removeSpaces (lowerStr w.reference)

/-- `self.year.to_lowercase().trim().to_string()`. -/
def yearNorm (w : WatchListing) : String := trimStr (lowerStr w.year)

/-- The selected price token: the USD raw token if present, else the EUR one. -/
def priceForHash (w : WatchListing) : String :=
  match w.price_usd_raw_for_hash with
  | some usd => usd
  | none => w.price_eur_raw_for_hash

/-- Case material: lowercased and trimmed unless it is the sentinel, in
which case it becomes the empty string. -/
def caseMaterialNorm (w : WatchListing) : String :=
  if w.case_material ≠ EMOJI_QUESTION then trimStr (lowerStr w.case_material) else ""

/-- The `components` vector. -/
def components (w : WatchListing) : List String :=
  [w.brandNorm, w.modelNorm, w.refNorm, w.priceForHash, w.yearNorm, w.caseMaterialNorm]

/-- `id_string`: the non-empty components joined with `"|"`. -/
def idString (w : WatchListing) : String :=
  String.intercalate "|" (w.components.filter (fun s => s != ""))

/-- `essential_count`: how many of brand/model/reference/price are
non-empty, not the sentinel, and not whitespace-only. -/
def essentialCount (w : WatchListing) : Nat :=
  ([w.brandNorm, w.modelNorm, w.refNorm, w.priceForHash].filter
    (fun s => s != "" && s != EMOJI_QUESTION && trimStr s != "")).length

/-- The fallback key: lowercased trimmed title, price token, and (when
the raw URL is non-empty) lowercased trimmed URL, non-empty parts joined
with `"|"`. -/
def fallbackString (w : WatchListing) : String :=
  let base := [trimStr (lowerStr w.title), w.priceForHash]
  let parts := if w.watch_url ≠ "" then base ++ [trimStr (lowerStr w.watch_url)] else base
  String.intercalate "|" (parts.filter (fun s => s != ""))

/-- The condition under which `generate_composite_id` discards the
primary `id_string` and hashes the fallback key instead. -/
def usesFallback (w : WatchListing) : Bool :=
  w.idString == "" || decide (countChar w.idString '|' < 2) ||
    decide (w.essentialCount < 2)

/-- The string fed to the MD5 hasher. -/
def hashString (w : WatchListing) : String :=
  if w.usesFallback then w.fallbackString else w.idString

/-- `WatchListing::generate_composite_id`: the lowercase-hex MD5 digest
of the selected key string. -/
def generate_composite_id (w : WatchListing) : String :=
  md5HexOfString w.hashString

end WatchListing

/-! ## Site enumeration (`src/models/site.rs`) -/

/-- The `Site` enum. -/
inductive Site
  | worldOfTime
  | grimmeissen
  | tropicalWatch
  | juwelierExchange
  | watchOut
  | rueschenbeck
deriving DecidableEq

/-- `Site::key`. -/
def Site.key : Site → String
  | .worldOfTime => "worldoftime"
  | .grimmeissen => "grimmeissen"
  | .tropicalWatch => "tropicalwatch"
  | .juwelierExchange => "juwelier_exchange"
  | .watchOut => "watch_out"
  | .rueschenbeck => "rueschenbeck"

/-- `Site::from_key`. -/
def Site.from_key (k : String) : Option Site :=
  if k = "worldoftime" then some .worldOfTime
  else if k = "grimmeissen" then some .grimmeissen
  else if k = "tropicalwatch" then some .tropicalWatch
  else if k = "juwelier_exchange" then some .juwelierExchange
  else if k = "watch_out" then some .watchOut
  else if k = "rueschenbeck" then some .rueschenbeck
  else none

/-- The six site keys. -/
def siteKeys : List String :=
  ["worldoftime", "grimmeissen", "tropicalwatch", "juwelier_exchange",
   "watch_out", "rueschenbeck"]

/-! ## Condition parser (`src/parsers/condition.rs`) -/

/-- Is `pat` a prefix of `l`? (model of Rust slice prefix matching). -/
def isPrefixList : List Char → List Char → Bool
  | [], _ => true
  | _ :: _, [] => false
  | a :: as', b :: bs => a == b && isPrefixList as' bs

/-- Does `l` contain `pat` as a contiguous sublist? -/
def containsSubList (pat : List Char) : List Char → Bool
  | [] => isPrefixList pat []
  | c :: cs => isPrefixList pat (c :: cs) || containsSubList pat cs

/-- Model of Rust `str::contains` with a string pattern. -/
def containsSub (s pat : String) : Bool := containsSubList pat.toList s.toList

/-- `get_condition_display` from `parsers/condition.rs`. -/
def get_condition_display (condition_raw : String) (site : Site)
    (description_parts : Option (List String)) : String :=
  let condition_lower := lowerStr condition_raw
  match site with
  | .worldOfTime =>
    if containsSub condition_lower "neu" || containsSub condition_lower "new" then "New"
    else if containsSub condition_lower "sehr gut" || containsSub condition_lower "very good" then
      "Very Good"
    else if containsSub condition_lower "gut" || containsSub condition_lower "good" then "Good"
    else if condition_raw ≠ EMOJI_QUESTION then condition_raw
    else EMOJI_QUESTION
  | .grimmeissen =>
    if containsSub condition_lower "neuwertig" || containsSub condition_lower "like new" then
      "Like New"
    else if containsSub condition_lower "sehr gut" || containsSub condition_lower "very good" then
      "Very Good"
    else if containsSub condition_lower "gut" || containsSub condition_lower "good" then "Good"
    else if condition_raw ≠ EMOJI_QUESTION then condition_raw
    else EMOJI_QUESTION
  | .tropicalWatch =>
    match description_parts with
    | some parts =>
      let desc_text := lowerStr (String.intercalate " " parts)
      if containsSub desc_text "mint" || containsSub desc_text "pristine" then "Mint"
      else if containsSub desc_text "excellent" then "Excellent"
      else if containsSub desc_text "very good" then "Very Good"
      else if containsSub desc_text "good" then "Good"
      else EMOJI_QUESTION
    | none => EMOJI_QUESTION
  | _ =>
    if condition_raw ≠ EMOJI_QUESTION then condition_raw
    else EMOJI_QUESTION

/-! ## Text normalizer `clean_text` (`src/parsers/mod.rs`)

`clean_text` decodes HTML entities, splits on Unicode whitespace
(`str::split_whitespace`, which yields no empty tokens), joins the
tokens with single spaces, and trims. -/

/-- One named HTML entity: the characters after `&` and the decoded
character. -/
def entityTable : List (List Char × Char) :=
  [("amp;".toList, '&'), ("lt;".toList, '<'), ("gt;".toList, '>'),
   ("quot;".toList, '"'), ("apos;".toList, '\''), ("nbsp;".toList, Char.ofNat 160)]

/-- Try to read one entity at the position just after a `&`: the decoded
character and the remaining input. -/
def matchEntity (l : List Char) : Option (Char × List Char) :=
  (entityTable.filterMap
    (fun p => if isPrefixList p.1 l then some (p.2, l.drop p.1.length) else none)).head?

/-- Modelled from the spec: `clean_text` "decode[s] HTML entities" via
the external `html_escape` crate (`decode_html_entities`), which is not
part of this repository. A single left-to-right pass replaces each
recognised entity and leaves everything else unchanged; this model
carries the basic named entities. Fuel-based so the kernel can evaluate
it; each step consumes at least one character, so `fuel = l.length`
always suffices. -/
def decodeEntitiesGo : Nat → List Char → List Char
  | 0, l => l
  | _, [] => []
  | fuel + 1, '&' :: rest =>
    match matchEntity rest with
    | some (c, rest') => c :: decodeEntitiesGo fuel rest'
    | none => '&' :: decodeEntitiesGo fuel rest
  | fuel + 1, c :: rest => c :: decodeEntitiesGo fuel rest

/-- HTML entity decoding of a character list. -/
def decodeEntities (l : List Char) : List Char := decodeEntitiesGo l.length l

/-- HTML entity decoding of a string. -/
def decodeStr (s : String) : String := String.mk (decodeEntities s.toList)

/-- One character of the whitespace split: a whitespace character opens
a new (empty) field, any other character extends the current field (the
accumulator is never empty, so the `[]` case is unreachable). -/
def splitWsStep (c : Char) (acc : List (List Char)) : List (List Char) :=
  if isRustWhitespace c then [] :: acc
  else
    match acc with
    | [] => [[c]]
    | w :: ws => (c :: w) :: ws

/-- Split on whitespace, keeping empty fields. -/
def splitWs (l : List Char) : List (List Char) :=
  l.foldr splitWsStep [[]]

/-- Model of Rust `str::split_whitespace`: the non-empty
whitespace-separated tokens. -/
def wordsOf (l : List Char) : List (List Char) :=
  (splitWs l).filter (fun w => !w.isEmpty)

/-- Model of Rust `Vec::join(" ")`. -/
def joinWords : List (List Char) → List Char
  | [] => []
  | [w] => w
  | w :: rest => w ++ ' ' :: joinWords rest

/-- `clean_text` from `parsers/mod.rs`: decode entities, collapse
whitespace runs to single spaces, trim. -/
def clean_text (s : String) : String :=
  String.mk (trimChars (joinWords (wordsOf (decodeEntities s.toList))))

/-! ## Seen-store (`src/storage/sqlite.rs`)

The `seen_watches` table has `PRIMARY KEY (site, watch_id)` and a
`first_seen` timestamp column. `mark_seen` runs
`INSERT OR IGNORE INTO seen_watches (site, watch_id) VALUES (?1, ?2)`;
`has_seen` runs `SELECT 1 ... WHERE site = ?1 AND watch_id = ?2`. The
SQL statements' semantics (external to the repository) are modelled on a
row list: a plain `INSERT` fails with a UNIQUE-constraint error when the
primary key is already present, while `OR IGNORE` turns that failure
into a no-op. -/

/-- One row of `seen_watches`. -/
structure SeenRow where
  site : String
  watch_id : String
  first_seen : Nat
deriving DecidableEq

/-- The rows of a table matching a (site, watch_id) pair. -/
def rowsFor (t : List SeenRow) (site id : String) : List SeenRow :=
  t.filter (fun r => r.site == site && r.watch_id == id)

/-- `SELECT 1 FROM seen_watches WHERE site = ?1 AND watch_id = ?2` is
some row exactly when a matching row exists. -/
def has_seen (t : List SeenRow) (site id : String) : Bool :=
  !(rowsFor t site id).isEmpty

/-- SQLite `INSERT [OR IGNORE] INTO seen_watches (site, watch_id)` with
`PRIMARY KEY (site, watch_id)` and `first_seen DEFAULT CURRENT_TIMESTAMP`
(the current timestamp is the `now` argument). -/
def sqliteInsert (orIgnore : Bool) (t : List SeenRow) (site id : String)
    (now : Nat) : Except String (List SeenRow) :=
  if (rowsFor t site id).isEmpty then .ok (t ++ [⟨site, id, now⟩])
  else if orIgnore then .ok t
  else .error "UNIQUE constraint failed: seen_watches.site, seen_watches.watch_id"

/-- `SqliteStorage::mark_seen`: `INSERT OR IGNORE`. -/
def mark_seen (t : List SeenRow) (site id : String) (now : Nat) :
    Except String (List SeenRow) :=
  sqliteInsert true t site id now

/-! ## Fetch/retry engine (`src/utils/http.rs`)

`fetch_with_retry` is modelled over an oracle `o : Nat → FetchOutcome`
giving the outcome of the `i`-th HTTP request (0-based). The returned
`FetchResult` records the `Result`, how many requests were issued, and
the seconds slept between attempts, in order. -/

/-- The outcome of one HTTP request. -/
inductive FetchOutcome
  | success (body : String)
  | httpError (status : Nat)
  | transport (msg : String)
deriving DecidableEq

/-- Did the request return a success status? -/
def FetchOutcome.isSuccess : FetchOutcome → Bool
  | .success _ => true
  | _ => false

/-- The error recorded in `last_error` for a failed attempt. -/
def FetchOutcome.errMsg : FetchOutcome → String
  | .success _ => ""
  | .httpError s => "HTTP error: " ++ toString s
  | .transport m => m

/-- The terminal failure: the `context(...)` wrapping of the last error
(`none` when no attempt was ever made, standing for the
"Max retries exceeded" placeholder). -/
structure FetchFailure where
  url : String
  attempts : Nat
  last : Option String
deriving DecidableEq

instance {ε α : Type} [DecidableEq ε] [DecidableEq α] : DecidableEq (Except ε α) :=
  fun x y =>
    match x, y with
    | .ok a, .ok b =>
      if h : a = b then isTrue (by rw [h]) else isFalse (by simp [h])
    | .error a, .error b =>
      if h : a = b then isTrue (by rw [h]) else isFalse (by simp [h])
    | .ok _, .error _ => isFalse (by simp)
    | .error _, .ok _ => isFalse (by simp)

/-- What a run of `fetch_with_retry` did. -/
structure FetchResult where
  result : Except FetchFailure String
  requests : Nat
  delays : List Nat
deriving DecidableEq

/-- The `while attempts < max_retries` loop of `fetch_with_retry`,
structurally recursive on the remaining attempt budget
`fuel = max_retries - attempts`. After a failed attempt the code sleeps
`2^attempts` seconds (with the incremented counter) only when another
attempt remains. -/
def fetchLoop (o : Nat → FetchOutcome) :
    Nat → Nat → Option String → (Except (Option String) String) × Nat × List Nat
  | _, 0, lastErr => (.error lastErr, 0, [])
  | attempts, fuel + 1, _ =>
    match o attempts with
    | .success b => (.ok b, 1, [])
    | e =>
      match fetchLoop o (attempts + 1) fuel (some e.errMsg) with
      | (r, n, ds) =>
        (r, n + 1, if fuel ≠ 0 then (2 ^ (attempts + 1)) :: ds else ds)

/-- `fetch_with_retry` from `utils/http.rs`. -/
def fetch_with_retry (o : Nat → FetchOutcome) (url : String)
    (maxRetries : Nat) : FetchResult :=
  match fetchLoop o 0 maxRetries none with
  | (.ok b, n, ds) => ⟨.ok b, n, ds⟩
  | (.error le, n, ds) => ⟨.error ⟨url, maxRetries, le⟩, n, ds⟩

/-! ## Orchestrator per-site listing loop (`src/main.rs`)

For each listing: compute the composite id, call `has_seen` (its error
propagates out of the loop via `?`), and if unseen send the Discord
notification (a failure is only logged), call `mark_seen` (error also
propagates via `?`), and bump `new_items`. Store faults are modelled by
predicates on the id; the notification outcome is modelled by `ntErr`
and, as in the source, has no influence on control flow. -/

/-- What one site's listing loop did in one cycle. -/
structure SiteRunResult where
  /-- ids recorded as seen (the per-site store after the loop). -/
  store : List String
  /-- ids for which a notification send was attempted, in order. -/
  notified : List String
  /-- ids whose notification send returned an error (and was logged). -/
  failedNotifies : List String
  /-- the `new_items` counter. -/
  newItems : Nat
  /-- ids for which `has_seen` was called, in order. -/
  checked : List String
  /-- the loop was aborted by a store error propagating via `?`. -/
  aborted : Bool
deriving DecidableEq

/-- The `for listing in listings` loop of `main.rs` for one site.
`hsErr id` / `msErr id`: the store lookup / write fails for that id;
`ntErr id`: the notification send fails for that id. -/
def runSiteLoop (hsErr msErr ntErr : String → Bool) (store : List String) :
    List WatchListing → SiteRunResult
  | [] => ⟨store, [], [], 0, [], false⟩
  | l :: rest =>
    let id := l.generate_composite_id
    if hsErr id then ⟨store, [], [], 0, [id], true⟩
    else if store.contains id then
      let r := runSiteLoop hsErr msErr ntErr store rest
      { r with checked := id :: r.checked }
    else
      let failed := ntErr id
      if msErr id then
        ⟨store, [id], if failed then [id] else [], 0, [id], true⟩
      else
        let r := runSiteLoop hsErr msErr ntErr (store ++ [id]) rest
        ⟨r.store, id :: r.notified,
          (if failed then [id] else []) ++ r.failedNotifies,
          r.newItems + 1, id :: r.checked, r.aborted⟩

/-- A fault function that never fires (store calls succeed,
notifications are delivered). -/
def noFault : String → Bool := fun _ => false

/-! ## Spec-side definitions and concrete inputs used by the claims -/

/-- The essential-field count as the specification words it: non-empty
and not the unknown sentinel (the code additionally excludes
whitespace-only tokens). -/
def claimEssentialCount (w : WatchListing) : Nat :=
  ([w.brandNorm, w.modelNorm, w.refNorm, w.priceForHash].filter
    (fun s => s != "" && s != EMOJI_QUESTION)).length

/-- The fallback condition as the specification words it, built on
`claimEssentialCount`. -/
def claimUsesFallback (w : WatchListing) : Bool :=
  w.idString == "" || decide (countChar w.idString '|' < 2) ||
    decide (claimEssentialCount w < 2)

/-- A listing with every hash field unknown except the title and URL. -/
def listingTitleA : WatchListing :=
  { WatchListing.default with title := "a", watch_url := "https://x/y" }

/-- As `listingTitleA` but with a different title. -/
def listingTitleB : WatchListing :=
  { WatchListing.default with title := "b", watch_url := "https://x/y" }

/-- As `listingTitleA` but with a third title. -/
def listingTitleC : WatchListing :=
  { WatchListing.default with title := "c", watch_url := "https://x/y" }

/-- A listing with enough essential fields that the primary id string is
hashed. -/
def primListingA : WatchListing :=
  { WatchListing.default with
      brand := "Rolex"
      model := "Submariner"
      reference := "116610 LN"
      price_eur_raw_for_hash := "8500"
      title := "listing one" }

/-- As `primListingA` but with different title and image URL. -/
def primListingB : WatchListing :=
  { WatchListing.default with
      brand := "Rolex"
      model := "Submariner"
      reference := "116610 LN"
      price_eur_raw_for_hash := "8500"
      title := "listing two"
      image_url := "https://cdn/x.jpg" }

/-- A listing whose only essential field under the code's counting is
the brand: the price token is whitespace-only. -/
def wspListing : WatchListing :=
  { WatchListing.default with
      brand := "Rolex"
      price_eur_raw_for_hash := " "
      title := "T"
      watch_url := "u" }

/-- The example listing of the fallback claim: unknown
brand/model/reference, price token `1200`, a title and a URL. -/
def exampleListing : WatchListing :=
  { WatchListing.default with
      price_eur_raw_for_hash := "1200"
      title := "Vintage Diver 1970"
      watch_url := "https://x/y" }

/-- The store-lookup fault used against the store-error claim:
`has_seen` errors exactly on `listingTitleA`'s composite id. -/
def hsFailA : String → Bool := fun s => s == "79e5b5a4d30bcf93ea4e452d41fbc9f1"

/-- The body of a successful outcome (empty string on failures, where it
is never consulted). -/
def FetchOutcome.bodyD : FetchOutcome → String
  | .success b => b
  | _ => ""

/-- A request oracle that fails once with HTTP 500 and then succeeds. -/
def oracleSecond : Nat → FetchOutcome :=
  fun n => if n = 1 then .success "page" else .httpError 500

/-- A request oracle whose every request fails in transport. -/
def oracleDown : Nat → FetchOutcome := fun _ => .transport "connection reset"

end WatchMonitor

namespace WatchMonitor

/-! ## Claims -/

/-- C10: site keys round-trip: for every `Site` variant `s`,
`Site::from_key(s.key())` is `Some(s)`, and for every string that is not
one of the six keys, `Site::from_key` returns `None`. -/
theorem site_key_roundtrip :
    (∀ s : Site, Site.from_key s.key = some s) ∧
    (∀ k : String, k ∉ siteKeys → Site.from_key k = none) := by
  constructor
  · intro s; cases s <;> rfl
  · intro k hk
    have h1 : k ≠ "worldoftime" := fun h => hk (by simp [siteKeys, h])
    have h2 : k ≠ "grimmeissen" := fun h => hk (by simp [siteKeys, h])
    have h3 : k ≠ "tropicalwatch" := fun h => hk (by simp [siteKeys, h])
    have h4 : k ≠ "juwelier_exchange" := fun h => hk (by simp [siteKeys, h])
    have h5 : k ≠ "watch_out" := fun h => hk (by simp [siteKeys, h])
    have h6 : k ≠ "rueschenbeck" := fun h => hk (by simp [siteKeys, h])
    simp [Site.from_key, h1, h2, h3, h4, h5, h6]

theorem site_key_roundtrip_witness :
    Site.from_key (Site.key .tropicalWatch) = some .tropicalWatch ∧
    Site.from_key "chrono24" = none :=
  ⟨site_key_roundtrip.1 .tropicalWatch, site_key_roundtrip.2 "chrono24" (by decide)⟩

/-- C9: a sentinel `❓` in brand, model, reference or year survives its
normalization and is kept as a component of the joined primary id string
(only empty components are dropped from the join); only the case
material is filtered: a sentinel case material normalizes to the empty
string, which the join omits. -/
theorem sentinel_in_primary_components (w : WatchListing) :
    (w.idString = String.intercalate "|" (w.components.filter (fun s => s != ""))) ∧
    (w.brand = EMOJI_QUESTION → w.brandNorm = EMOJI_QUESTION ∧
      w.brandNorm ∈ w.components.filter (fun s => s != "")) ∧
    (w.model = EMOJI_QUESTION → w.modelNorm = EMOJI_QUESTION ∧
      w.modelNorm ∈ w.components.filter (fun s => s != "")) ∧
    (w.reference = EMOJI_QUESTION → w.refNorm = EMOJI_QUESTION ∧
      w.refNorm ∈ w.components.filter (fun s => s != "")) ∧
    (w.year = EMOJI_QUESTION → w.yearNorm = EMOJI_QUESTION ∧
      w.yearNorm ∈ w.components.filter (fun s => s != "")) ∧
    (w.case_material = EMOJI_QUESTION → w.caseMaterialNorm = "" ∧
      "" ∉ w.components.filter (fun s => s != "")) := by
  refine ⟨rfl, ?_, ?_, ?_, ?_, ?_⟩
  · intro h
    have hn : w.brandNorm = EMOJI_QUESTION := by
      rw [WatchListing.brandNorm, h]; decide
    refine ⟨hn, List.mem_filter.mpr ⟨by simp [WatchListing.components], ?_⟩⟩
    rw [hn]; decide
  · intro h
    have hn : w.modelNorm = EMOJI_QUESTION := by
      rw [WatchListing.modelNorm, h]; decide
    refine ⟨hn, List.mem_filter.mpr ⟨by simp [WatchListing.components], ?_⟩⟩
    rw [hn]; decide
  · intro h
    have hn : w.refNorm = EMOJI_QUESTION := by
      rw [WatchListing.refNorm, h]; decide
    refine ⟨hn, List.mem_filter.mpr ⟨by simp [WatchListing.components], ?_⟩⟩
    rw [hn]; decide
  · intro h
    have hn : w.yearNorm = EMOJI_QUESTION := by
      rw [WatchListing.yearNorm, h]; decide
    refine ⟨hn, List.mem_filter.mpr ⟨by simp [WatchListing.components], ?_⟩⟩
    rw [hn]; decide
  · intro h
    have hn : w.caseMaterialNorm = "" := by
      simp [WatchListing.caseMaterialNorm, h]
    refine ⟨hn, fun hmem => ?_⟩
    have h2 := (List.mem_filter.mp hmem).2
    simp at h2

theorem sentinel_in_primary_components_witness :
    WatchListing.default.brandNorm = EMOJI_QUESTION ∧
    WatchListing.default.brandNorm ∈
      WatchListing.default.components.filter (fun s => s != "") ∧
    WatchListing.default.caseMaterialNorm = "" :=
  ⟨((sentinel_in_primary_components WatchListing.default).2.1 rfl).1,
   ((sentinel_in_primary_components WatchListing.default).2.1 rfl).2,
   ((sentinel_in_primary_components WatchListing.default).2.2.2.2.2 rfl).1⟩

/-- C5: `mark_seen` is idempotent: starting from any table satisfying
the primary-key invariant, marking a (site, id) pair twice succeeds both
times, the second call is a no-op, exactly one matching row remains, and
`has_seen` is true after either call. -/
theorem mark_seen_idempotent (t : List SeenRow) (site id : String) (n1 n2 : Nat)
    (hpk : (rowsFor t site id).length ≤ 1) :
    ∃ t1 t2, mark_seen t site id n1 = .ok t1 ∧ mark_seen t1 site id n2 = .ok t2 ∧
      t2 = t1 ∧ (rowsFor t2 site id).length = 1 ∧
      has_seen t1 site id = true ∧ has_seen t2 site id = true := by
  by_cases h : (rowsFor t site id).isEmpty
  · have ht : rowsFor t site id = [] := List.isEmpty_iff.mp h
    have hrows : rowsFor (t ++ [⟨site, id, n1⟩]) site id = [⟨site, id, n1⟩] := by
      unfold rowsFor at ht ⊢
      rw [List.filter_append, ht]
      simp
    refine ⟨t ++ [⟨site, id, n1⟩], t ++ [⟨site, id, n1⟩], ?_, ?_, rfl, ?_, ?_, ?_⟩
    · simp [mark_seen, sqliteInsert, h]
    · simp [mark_seen, sqliteInsert, hrows]
    · simp [hrows]
    · simp [has_seen, hrows]
    · simp [has_seen, hrows]
  · have hne : rowsFor t site id ≠ [] := fun hh => h (by simp [hh])
    have hlen : (rowsFor t site id).length = 1 := by
      have := List.length_pos.mpr hne
      omega
    refine ⟨t, t, ?_, ?_, rfl, hlen, ?_, ?_⟩
    · simp [mark_seen, sqliteInsert, h]
    · simp [mark_seen, sqliteInsert, h]
    · simp [has_seen, List.isEmpty_iff, hne]
    · simp [has_seen, List.isEmpty_iff, hne]

theorem mark_seen_idempotent_witness :
    ∃ t1 t2, mark_seen [⟨"worldoftime", "aaa", 5⟩] "tropicalwatch" "abc" 7 = .ok t1 ∧
      mark_seen t1 "tropicalwatch" "abc" 9 = .ok t2 ∧ t2 = t1 ∧
      (rowsFor t2 "tropicalwatch" "abc").length = 1 ∧
      has_seen t1 "tropicalwatch" "abc" = true ∧
      has_seen t2 "tropicalwatch" "abc" = true :=
  mark_seen_idempotent [⟨"worldoftime", "aaa", 5⟩] "tropicalwatch" "abc" 7 9 (by decide)

/-- C2 counterexample: for a listing whose price token is whitespace-only
(`" "`) and whose only other essential field is the brand, the claim's
condition (fewer than two of brand/model/reference/price non-empty and
non-sentinel) does not hold, yet the code hashes the fallback key, which
differs from the hash of the primary joined string: the code's essential
count also excludes whitespace-only tokens. -/
theorem fallback_condition_counterexample :
    claimUsesFallback wspListing = false ∧
    wspListing.generate_composite_id = md5HexOfString wspListing.fallbackString ∧
    md5HexOfString wspListing.fallbackString ≠ md5HexOfString wspListing.idString := by
  refine ⟨by decide, by decide, by decide⟩

/-- C2 amended: `generate_composite_id` hashes the fallback key exactly
when the primary joined string is empty, or has fewer than two `|`
separators, or fewer than two of brand/model/reference/price-token are
non-empty, non-sentinel and non-whitespace-only; otherwise it hashes the
primary string. In particular the listing with unknown
brand/model/reference, price token `1200`, title `Vintage Diver 1970`
and URL `https://x/y` hashes the fallback string. -/
theorem fallback_routing :
    (∀ w : WatchListing,
      w.generate_composite_id =
        md5HexOfString
          (if w.idString = "" ∨ countChar w.idString '|' < 2 ∨ w.essentialCount < 2
           then w.fallbackString else w.idString)) ∧
    exampleListing.generate_composite_id =
      md5HexOfString exampleListing.fallbackString := by
  constructor
  · intro w
    have hiff : w.usesFallback = true ↔
        (w.idString = "" ∨ countChar w.idString '|' < 2 ∨ w.essentialCount < 2) := by
      simp [WatchListing.usesFallback, or_assoc]
    unfold WatchListing.generate_composite_id WatchListing.hashString
    by_cases hc : w.idString = "" ∨ countChar w.idString '|' < 2 ∨ w.essentialCount < 2
    · rw [if_pos (hiff.mpr hc), if_pos hc]
    · rw [if_neg (fun hb => hc (hiff.mp hb)), if_neg hc]
  · decide

/-- C8 counterexample: for raw condition text `defekt` on WorldOfTime,
`get_condition_display` returns the raw text verbatim, which is outside
the claimed closed label set and is not the sentinel. -/
theorem condition_display_counterexample :
    get_condition_display "defekt" .worldOfTime none = "defekt" ∧
    "defekt" ∉ ["New", "Like New", "Excellent", "Very Good", "Good", "Mint",
      "Fair", EMOJI_QUESTION] := by
  refine ⟨by decide, by decide⟩

/-- C8 amended: `get_condition_display` returns a label from
{New, Like New, Very Good, Good, Mint, Excellent}, the sentinel, or the
raw condition text verbatim (for a non-sentinel text matching no keyword
outside TropicalWatch); for TropicalWatch the result is always in
{Mint, Excellent, Very Good, Good, sentinel}. -/
theorem condition_display_range :
    (∀ (raw : String) (site : Site) (parts : Option (List String)),
      get_condition_display raw site parts = raw ∨
      get_condition_display raw site parts ∈
        ["New", "Like New", "Very Good", "Good", "Mint", "Excellent", EMOJI_QUESTION]) ∧
    (∀ (raw : String) (parts : Option (List String)),
      get_condition_display raw .tropicalWatch parts ∈
        ["Mint", "Excellent", "Very Good", "Good", EMOJI_QUESTION]) := by
  constructor
  · intro raw site parts
    cases site
    case worldOfTime =>
      simp only [get_condition_display]
      split_ifs <;> simp [EMOJI_QUESTION]
    case grimmeissen =>
      simp only [get_condition_display]
      split_ifs <;> simp [EMOJI_QUESTION]
    case tropicalWatch =>
      cases parts
      · simp [get_condition_display, EMOJI_QUESTION]
      · simp only [get_condition_display]
        split_ifs <;> simp [EMOJI_QUESTION]
    case juwelierExchange =>
      simp only [get_condition_display]
      split_ifs <;> simp [EMOJI_QUESTION]
    case watchOut =>
      simp only [get_condition_display]
      split_ifs <;> simp [EMOJI_QUESTION]
    case rueschenbeck =>
      simp only [get_condition_display]
      split_ifs <;> simp [EMOJI_QUESTION]
  · intro raw parts
    cases parts
    · simp [get_condition_display, EMOJI_QUESTION]
    · simp only [get_condition_display]
      split_ifs <;> simp [EMOJI_QUESTION]

/-- C1 counterexample: two listings agreeing on every normalized hash
field (all unknown, price empty) but with different titles get different
composite ids: when the fallback key is used, the id also depends on the
title and URL. -/
theorem composite_id_title_counterexample :
    listingTitleA.brandNorm = listingTitleB.brandNorm ∧
    listingTitleA.modelNorm = listingTitleB.modelNorm ∧
    listingTitleA.refNorm = listingTitleB.refNorm ∧
    listingTitleA.yearNorm = listingTitleB.yearNorm ∧
    listingTitleA.priceForHash = listingTitleB.priceForHash ∧
    listingTitleA.caseMaterialNorm = listingTitleB.caseMaterialNorm ∧
    listingTitleA.generate_composite_id ≠ listingTitleB.generate_composite_id := by
  refine ⟨by decide, by decide, by decide, by decide, by decide, by decide, by decide⟩

/-- C1 amended: for listings agreeing on normalized brand, model,
reference, year, selected price token and case material, and for which
the primary id string is used (the fallback condition does not fire),
the composite ids are equal, regardless of any other field. -/
theorem composite_id_agreement (w1 w2 : WatchListing)
    (hb : w1.brandNorm = w2.brandNorm) (hm : w1.modelNorm = w2.modelNorm)
    (hr : w1.refNorm = w2.refNorm) (hy : w1.yearNorm = w2.yearNorm)
    (hp : w1.priceForHash = w2.priceForHash)
    (hc : w1.caseMaterialNorm = w2.caseMaterialNorm)
    (hprimary : w1.usesFallback = false) :
    w1.generate_composite_id = w2.generate_composite_id := by
  have hcomp : w1.components = w2.components := by
    simp [WatchListing.components, hb, hm, hr, hy, hp, hc]
  have hid : w1.idString = w2.idString := by
    simp [WatchListing.idString, hcomp]
  have hess : w1.essentialCount = w2.essentialCount := by
    simp [WatchListing.essentialCount, hb, hm, hr, hp]
  have hfb : w2.usesFallback = false := by
    rw [← hprimary]
    simp [WatchListing.usesFallback, hid, hess]
  simp [WatchListing.generate_composite_id, WatchListing.hashString, hprimary, hfb, hid]

theorem composite_id_agreement_witness :
    primListingA.generate_composite_id = primListingB.generate_composite_id :=
  composite_id_agreement primListingA primListingB (by decide) (by decide)
    (by decide) (by decide) (by decide) (by decide) (by decide)

/-- C3: with the store operations succeeding, an already-seen listing
causes neither a notification attempt nor a store write, while an unseen
listing is notified (counted even when the send fails) and then written
to the store; on the concrete 3-listing scenario with 2 already-seen ids
and failing notifications, exactly one notification is attempted and
exactly one id is added to the store. -/
theorem unseen_notify_and_mark :
    (∀ (ntErr : String → Bool) (store : List String) (l : WatchListing)
        (rest : List WatchListing),
      (store.contains l.generate_composite_id = true →
        runSiteLoop noFault noFault ntErr store (l :: rest) =
          { runSiteLoop noFault noFault ntErr store rest with
              checked := l.generate_composite_id ::
                (runSiteLoop noFault noFault ntErr store rest).checked }) ∧
      (store.contains l.generate_composite_id = false →
        runSiteLoop noFault noFault ntErr store (l :: rest) =
          ⟨(runSiteLoop noFault noFault ntErr
              (store ++ [l.generate_composite_id]) rest).store,
            l.generate_composite_id ::
              (runSiteLoop noFault noFault ntErr
                (store ++ [l.generate_composite_id]) rest).notified,
            (if ntErr l.generate_composite_id then [l.generate_composite_id] else []) ++
              (runSiteLoop noFault noFault ntErr
                (store ++ [l.generate_composite_id]) rest).failedNotifies,
            (runSiteLoop noFault noFault ntErr
              (store ++ [l.generate_composite_id]) rest).newItems + 1,
            l.generate_composite_id ::
              (runSiteLoop noFault noFault ntErr
                (store ++ [l.generate_composite_id]) rest).checked,
            (runSiteLoop noFault noFault ntErr
              (store ++ [l.generate_composite_id]) rest).aborted⟩)) ∧
    runSiteLoop noFault noFault (fun _ => true)
        ["79e5b5a4d30bcf93ea4e452d41fbc9f1", "0d2c1d19cca5855cc276c8d17784aaec"]
        [listingTitleA, listingTitleB, listingTitleC] =
      ⟨["79e5b5a4d30bcf93ea4e452d41fbc9f1", "0d2c1d19cca5855cc276c8d17784aaec",
        "c7aa86f8ed4214d5206d6997c5566f2c"],
        ["c7aa86f8ed4214d5206d6997c5566f2c"], ["c7aa86f8ed4214d5206d6997c5566f2c"], 1,
        ["79e5b5a4d30bcf93ea4e452d41fbc9f1", "0d2c1d19cca5855cc276c8d17784aaec",
        "c7aa86f8ed4214d5206d6997c5566f2c"], false⟩ := by
  refine ⟨?_, by decide⟩
  intro ntErr store l rest
  constructor
  · intro h
    simp only [runSiteLoop, noFault]
    rw [h]
    simp
  · intro h
    simp only [runSiteLoop, noFault]
    rw [h]
    simp

theorem unseen_notify_and_mark_witness :
    ["79e5b5a4d30bcf93ea4e452d41fbc9f1"].contains listingTitleA.generate_composite_id
        = true ∧
    runSiteLoop noFault noFault (fun _ => true)
        ["79e5b5a4d30bcf93ea4e452d41fbc9f1"] [listingTitleA] =
      { runSiteLoop noFault noFault (fun _ => true)
          ["79e5b5a4d30bcf93ea4e452d41fbc9f1"] ([] : List WatchListing) with
          checked := listingTitleA.generate_composite_id ::
            (runSiteLoop noFault noFault (fun _ => true)
              ["79e5b5a4d30bcf93ea4e452d41fbc9f1"] ([] : List WatchListing)).checked } :=
  ⟨by decide,
   (unseen_notify_and_mark.1 (fun _ => true) ["79e5b5a4d30bcf93ea4e452d41fbc9f1"]
      listingTitleA []).1 (by decide)⟩

/-- C4 counterexample: with `has_seen` erroring on the first listing's
id, the second listing of the same cycle is never checked against the
store: the `?` operator aborts the per-site loop instead of continuing
with the remaining listings. -/
theorem store_error_counterexample :
    hsFailA listingTitleA.generate_composite_id = true ∧
    runSiteLoop hsFailA noFault noFault [] [listingTitleA, listingTitleB] =
      ⟨[], [], [], 0, [listingTitleA.generate_composite_id], true⟩ ∧
    listingTitleB.generate_composite_id ∉ [listingTitleA.generate_composite_id] := by
  refine ⟨by decide, by decide, by decide⟩

/-- C4 amended: a store error for one listing aborts that site's loop
for the cycle: a failing `has_seen` propagates via `?` with nothing else
done, and a failing `mark_seen` on an unseen listing propagates after
the notification attempt; in both cases no later listing of that site is
processed in that cycle (the error is only logged at cycle end and other
sites are unaffected). -/
theorem store_error_aborts_loop (hsErr msErr ntErr : String → Bool)
    (store : List String) (l : WatchListing) (rest : List WatchListing) :
    (hsErr l.generate_composite_id = true →
      runSiteLoop hsErr msErr ntErr store (l :: rest) =
        ⟨store, [], [], 0, [l.generate_composite_id], true⟩) ∧
    (hsErr l.generate_composite_id = false →
      store.contains l.generate_composite_id = false →
      msErr l.generate_composite_id = true →
      runSiteLoop hsErr msErr ntErr store (l :: rest) =
        ⟨store, [l.generate_composite_id],
          if ntErr l.generate_composite_id then [l.generate_composite_id] else [],
          0, [l.generate_composite_id], true⟩) := by
  constructor
  · intro h
    simp only [runSiteLoop]
    rw [h]
    simp
  · intro h1 h2 h3
    simp only [runSiteLoop]
    rw [h1, h2, h3]
    simp

/-- Helper: the retry loop issues at most `fuel` requests. -/
theorem fetchLoop_requests_le (o : Nat → FetchOutcome) :
    ∀ (fuel attempts : Nat) (le : Option String),
      (fetchLoop o attempts fuel le).2.1 ≤ fuel := by
  intro fuel
  induction fuel with
  | zero => intro attempts le; simp [fetchLoop]
  | succ n ih =>
    intro attempts le
    cases ho : o attempts with
    | success b => simp [fetchLoop, ho]
    | httpError s =>
      have hle := ih (attempts + 1) (some (FetchOutcome.errMsg (.httpError s)))
      rcases hrec : fetchLoop o (attempts + 1) n
          (some (FetchOutcome.errMsg (.httpError s))) with ⟨r, n2, ds⟩
      rw [hrec] at hle
      simp only [fetchLoop, ho, hrec]
      simp at hle ⊢
      omega
    | transport m =>
      have hle := ih (attempts + 1) (some (FetchOutcome.errMsg (.transport m)))
      rcases hrec : fetchLoop o (attempts + 1) n
          (some (FetchOutcome.errMsg (.transport m))) with ⟨r, n2, ds⟩
      rw [hrec] at hle
      simp only [fetchLoop, ho, hrec]
      simp at hle ⊢
      omega

/-- Helper: shifting the backoff exponents across one retry step. -/
theorem range_pow_shift (a k : Nat) :
    (List.range (k + 1)).map (fun j => 2 ^ (a + j + 1)) =
      2 ^ (a + 1) :: (List.range k).map (fun j => 2 ^ (a + 1 + j + 1)) := by
  rw [List.range_succ_eq_map, List.map_cons, List.map_map]
  have h1 : a + 0 + 1 = a + 1 := by omega
  have h2 : ((fun j => 2 ^ (a + j + 1)) ∘ Nat.succ) =
      (fun j => 2 ^ (a + 1 + j + 1)) := by
    funext j
    show 2 ^ (a + Nat.succ j + 1) = 2 ^ (a + 1 + j + 1)
    congr 1
    omega
  rw [h1, h2]

/-- Helper: with the first success at relative index `i < fuel`, the
loop returns that body after `i + 1` requests, sleeping `2^(attempts+j+1)`
seconds after the `j`-th failed attempt. -/
theorem fetchLoop_first_success (o : Nat → FetchOutcome) :
    ∀ (fuel attempts i : Nat) (le : Option String),
      i < fuel →
      (∀ j, j < i → (o (attempts + j)).isSuccess = false) →
      (o (attempts + i)).isSuccess = true →
      fetchLoop o attempts fuel le =
        (.ok ((o (attempts + i)).bodyD), i + 1,
          (List.range i).map (fun j => 2 ^ (attempts + j + 1))) := by
  intro fuel
  induction fuel with
  | zero => intro attempts i le hi; omega
  | succ n ih =>
    intro attempts i le hi hfail hsucc
    cases i with
    | zero =>
      rw [Nat.add_zero] at hsucc ⊢
      cases ho : o attempts with
      | success b => simp [fetchLoop, ho, FetchOutcome.bodyD]
      | httpError s => rw [ho] at hsucc; simp [FetchOutcome.isSuccess] at hsucc
      | transport m => rw [ho] at hsucc; simp [FetchOutcome.isSuccess] at hsucc
    | succ k =>
      have h0 : (o attempts).isSuccess = false := by
        have := hfail 0 (Nat.succ_pos k)
        rwa [Nat.add_zero] at this
      have hn : n ≠ 0 := by omega
      have hshift : ∀ e : FetchOutcome, o attempts = e →
          FetchOutcome.isSuccess e = false →
          fetchLoop o (attempts + 1) n (some e.errMsg) =
            (.ok ((o (attempts + 1 + k)).bodyD), k + 1,
              (List.range k).map (fun j => 2 ^ (attempts + 1 + j + 1))) := by
        intro e he hes
        exact ih (attempts + 1) k (some e.errMsg) (by omega)
          (fun j hj => by
            have := hfail (j + 1) (by omega)
            rwa [show attempts + (j + 1) = attempts + 1 + j by omega] at this)
          (by rwa [show attempts + (k + 1) = attempts + 1 + k by omega] at hsucc)
      cases ho : o attempts with
      | success b => rw [ho] at h0; simp [FetchOutcome.isSuccess] at h0
      | httpError s =>
        have hrec := hshift (.httpError s) ho (by simp [FetchOutcome.isSuccess])
        simp only [fetchLoop, ho, hrec, if_pos hn]
        rw [show attempts + (k + 1) = attempts + 1 + k by omega, range_pow_shift]
      | transport m =>
        have hrec := hshift (.transport m) ho (by simp [FetchOutcome.isSuccess])
        simp only [fetchLoop, ho, hrec, if_pos hn]
        rw [show attempts + (k + 1) = attempts + 1 + k by omega, range_pow_shift]

/-- Helper: one failed attempt unfolds the loop one step. -/
theorem fetchLoop_fail_step (o : Nat → FetchOutcome) (attempts fuel : Nat)
    (le : Option String) (e : FetchOutcome) (ho : o attempts = e)
    (he : e.isSuccess = false) :
    fetchLoop o attempts (fuel + 1) le =
      ((fetchLoop o (attempts + 1) fuel (some e.errMsg)).1,
        (fetchLoop o (attempts + 1) fuel (some e.errMsg)).2.1 + 1,
        if fuel ≠ 0 then 2 ^ (attempts + 1) ::
            (fetchLoop o (attempts + 1) fuel (some e.errMsg)).2.2
          else (fetchLoop o (attempts + 1) fuel (some e.errMsg)).2.2) := by
  cases e with
  | success b => simp [FetchOutcome.isSuccess] at he
  | httpError s => simp only [fetchLoop, ho]
  | transport m => simp only [fetchLoop, ho]

/-- Helper: when all `fuel` attempts fail, the loop returns the last
error after `fuel` requests, with backoff delays between attempts. -/
theorem fetchLoop_all_fail (o : Nat → FetchOutcome) :
    ∀ (fuel attempts : Nat) (le : Option String),
      0 < fuel →
      (∀ j, j < fuel → (o (attempts + j)).isSuccess = false) →
      fetchLoop o attempts fuel le =
        (.error (some ((o (attempts + (fuel - 1))).errMsg)), fuel,
          (List.range (fuel - 1)).map (fun j => 2 ^ (attempts + j + 1))) := by
  intro fuel
  induction fuel with
  | zero => intro attempts le h; omega
  | succ n ih =>
    intro attempts le _ hfail
    have h0 : (o attempts).isSuccess = false := by
      have := hfail 0 (Nat.succ_pos n)
      rwa [Nat.add_zero] at this
    have hshift : ∀ e : FetchOutcome, 0 < n →
        fetchLoop o (attempts + 1) n (some e.errMsg) =
          (.error (some ((o (attempts + 1 + (n - 1))).errMsg)), n,
            (List.range (n - 1)).map (fun j => 2 ^ (attempts + 1 + j + 1))) := by
      intro e hn
      exact ih (attempts + 1) (some e.errMsg) hn
        (fun j hj => by
          have := hfail (j + 1) (by omega)
          rwa [show attempts + (j + 1) = attempts + 1 + j by omega] at this)
    cases n with
    | zero =>
      cases ho : o attempts with
      | success b => rw [ho] at h0; simp [FetchOutcome.isSuccess] at h0
      | httpError s => simp [fetchLoop, ho]
      | transport m => simp [fetchLoop, ho]
    | succ m =>
      cases ho : o attempts with
      | success b => rw [ho] at h0; simp [FetchOutcome.isSuccess] at h0
      | httpError s =>
        have hrec := hshift (.httpError s) (Nat.succ_pos m)
        rw [fetchLoop_fail_step o attempts (m + 1) le (.httpError s) ho
          (by simp [FetchOutcome.isSuccess]), hrec]
        dsimp only
        rw [if_pos (Nat.succ_ne_zero m)]
        simp only [Nat.add_sub_cancel]
        rw [show attempts + (m + 1) = attempts + 1 + m by omega, range_pow_shift]
      | transport m2 =>
        have hrec := hshift (.transport m2) (Nat.succ_pos m)
        rw [fetchLoop_fail_step o attempts (m + 1) le (.transport m2) ho
          (by simp [FetchOutcome.isSuccess]), hrec]
        dsimp only
        rw [if_pos (Nat.succ_ne_zero m)]
        simp only [Nat.add_sub_cancel]
        rw [show attempts + (m + 1) = attempts + 1 + m by omega, range_pow_shift]

/-- C7: `fetch_with_retry` issues at most `max_attempts` requests;
returns the first successful response after `i + 1` requests with
backoff delays `2^1 … 2^i` between the failed attempts; and when every
attempt fails, returns the last error observed wrapped with the URL and
the attempt count, after exactly `max_attempts` requests. -/
theorem fetch_with_retry_spec :
    (∀ (o : Nat → FetchOutcome) (url : String) (maxAttempts : Nat),
      (fetch_with_retry o url maxAttempts).requests ≤ maxAttempts) ∧
    (∀ (o : Nat → FetchOutcome) (url : String) (maxAttempts i : Nat),
      i < maxAttempts → (∀ j, j < i → (o j).isSuccess = false) →
      (o i).isSuccess = true →
      fetch_with_retry o url maxAttempts =
        ⟨.ok ((o i).bodyD), i + 1, (List.range i).map (fun j => 2 ^ (j + 1))⟩) ∧
    (∀ (o : Nat → FetchOutcome) (url : String) (maxAttempts : Nat),
      0 < maxAttempts → (∀ j, j < maxAttempts → (o j).isSuccess = false) →
      fetch_with_retry o url maxAttempts =
        ⟨.error ⟨url, maxAttempts, some ((o (maxAttempts - 1)).errMsg)⟩, maxAttempts,
          (List.range (maxAttempts - 1)).map (fun j => 2 ^ (j + 1))⟩) := by
  refine ⟨?_, ?_, ?_⟩
  · intro o url m
    have hle := fetchLoop_requests_le o m 0 none
    unfold fetch_with_retry
    rcases hfl : fetchLoop o 0 m none with ⟨r, n, ds⟩
    rw [hfl] at hle
    cases r <;> simpa using hle
  · intro o url m i hi hfail hsucc
    have h := fetchLoop_first_success o m 0 i none hi
      (fun j hj => by simpa using hfail j hj) (by simpa using hsucc)
    unfold fetch_with_retry
    rw [h]
    simp
  · intro o url m hm hfail
    have h := fetchLoop_all_fail o m 0 none hm
      (fun j hj => by simpa using hfail j hj)
    unfold fetch_with_retry
    rw [h]
    simp

theorem fetch_with_retry_spec_witness :
    (fetch_with_retry oracleSecond "https://example.com/a" 3).requests ≤ 3 ∧
    fetch_with_retry oracleSecond "https://example.com/a" 3 = ⟨.ok "page", 2, [2]⟩ ∧
    fetch_with_retry oracleDown "https://example.com/b" 2 =
      ⟨.error ⟨"https://example.com/b", 2, some "connection reset"⟩, 2, [2]⟩ :=
  ⟨fetch_with_retry_spec.1 oracleSecond "https://example.com/a" 3,
   fetch_with_retry_spec.2.1 oracleSecond "https://example.com/a" 3 1 (by omega)
     (fun j hj => by
       have : j = 0 := by omega
       subst this
       decide)
     (by decide),
   fetch_with_retry_spec.2.2 oracleDown "https://example.com/b" 2 (by omega)
     (fun j hj => rfl)⟩

theorem store_error_aborts_loop_witness :
    runSiteLoop hsFailA noFault noFault ["zzz"] [listingTitleA, listingTitleB] =
      ⟨["zzz"], [], [], 0, [listingTitleA.generate_composite_id], true⟩ ∧
    runSiteLoop noFault (fun _ => true) noFault [] [listingTitleB] =
      ⟨[], [listingTitleB.generate_composite_id], [], 0,
        [listingTitleB.generate_composite_id], true⟩ :=
  ⟨(store_error_aborts_loop hsFailA noFault noFault ["zzz"] listingTitleA
      [listingTitleB]).1 (by decide),
   (store_error_aborts_loop noFault (fun _ => true) noFault [] listingTitleB []).2
      (by decide) (by decide) (by decide)⟩

/-- Helper: the split of a cons is one step over the split of the tail. -/
theorem splitWs_cons (c : Char) (l : List Char) :
    splitWs (c :: l) = splitWsStep c (splitWs l) := rfl

/-- Helper: a whitespace character opens an empty field. -/
theorem splitWsStep_ws {c : Char} (hc : isRustWhitespace c = true)
    (acc : List (List Char)) : splitWsStep c acc = [] :: acc := by
  simp [splitWsStep, hc]

/-- Helper: a non-whitespace character extends the current field. -/
theorem splitWsStep_nws {c : Char} (hc : isRustWhitespace c = false)
    (w : List Char) (ws : List (List Char)) :
    splitWsStep c (w :: ws) = (c :: w) :: ws := by
  simp [splitWsStep, hc]

/-- Helper: the split always has at least one field. -/
theorem splitWs_ne_nil (l : List Char) : splitWs l ≠ [] := by
  induction l with
  | nil => simp [splitWs]
  | cons c t ih =>
    rw [splitWs_cons]
    unfold splitWsStep
    split
    · simp
    · cases h : splitWs t with
      | nil => simp
      | cons w ws => simp

/-- Helper: every character of every field of the split is
non-whitespace. -/
theorem splitWs_chars (l : List Char) :
    ∀ w ∈ splitWs l, ∀ c ∈ w, isRustWhitespace c = false := by
  induction l with
  | nil =>
    intro w hw c hc
    simp [splitWs] at hw
    subst hw
    simp at hc
  | cons a t ih =>
    intro w hw d hd
    rw [splitWs_cons] at hw
    by_cases ha : isRustWhitespace a = true
    · rw [splitWsStep_ws ha] at hw
      rcases List.mem_cons.mp hw with rfl | hw2
      · simp at hd
      · exact ih w hw2 d hd
    · have ha2 : isRustWhitespace a = false := by simpa using ha
      cases hsp : splitWs t with
      | nil => exact absurd hsp (splitWs_ne_nil t)
      | cons w0 ws0 =>
        rw [hsp, splitWsStep_nws ha2] at hw
        rcases List.mem_cons.mp hw with rfl | hw2
        · rcases List.mem_cons.mp hd with rfl | hd2
          · exact ha2
          · exact ih w0 (by rw [hsp]; exact List.mem_cons_self w0 ws0) d hd2
        · exact ih w (by rw [hsp]; exact List.mem_cons_of_mem w0 hw2) d hd

/-- Helper: the words of any character list are non-empty and contain no
whitespace. -/
theorem wordsOf_wf (l : List Char) :
    ∀ w ∈ wordsOf l, w ≠ [] ∧ ∀ c ∈ w, isRustWhitespace c = false := by
  intro w hw
  have h := List.mem_filter.mp hw
  refine ⟨?_, splitWs_chars l w h.1⟩
  have h2 := h.2
  simpa [List.isEmpty_iff] using h2

/-- Helper: prepending a whitespace-free word extends the first field of
the split. -/
theorem splitWs_word_append (w : List Char)
    (hw : ∀ c ∈ w, isRustWhitespace c = false) :
    ∀ (l v : List Char) (vs : List (List Char)),
      splitWs l = v :: vs → splitWs (w ++ l) = (w ++ v) :: vs := by
  induction w with
  | nil => intro l v vs h; simpa using h
  | cons c t ih =>
    intro l v vs h
    have hc : isRustWhitespace c = false := hw c (List.mem_cons_self c t)
    have ht := ih (fun d hd => hw d (List.mem_cons_of_mem c hd)) l v vs h
    rw [List.cons_append, splitWs_cons, ht, splitWsStep_nws hc]
    rfl

/-- Helper: joining a word onto a non-empty tail inserts one space. -/
theorem joinWords_cons (w : List Char) (ws : List (List Char)) (h : ws ≠ []) :
    joinWords (w :: ws) = w ++ ' ' :: joinWords ws := by
  cases ws with
  | nil => exact absurd rfl h
  | cons a t => rfl

/-- Helper: splitting the join of well-formed words gives the words
back. -/
theorem wordsOf_joinWords :
    ∀ ws : List (List Char),
      (∀ w ∈ ws, w ≠ [] ∧ ∀ c ∈ w, isRustWhitespace c = false) →
      wordsOf (joinWords ws) = ws := by
  intro ws
  induction ws with
  | nil => intro _; rfl
  | cons w rest ih =>
    intro hwf
    obtain ⟨hne, hnw⟩ := hwf w (List.mem_cons_self w rest)
    have hwtrue : (!w.isEmpty) = true := by simpa [List.isEmpty_iff] using hne
    cases rest with
    | nil =>
      have h1 : splitWs ([] : List Char) = [] :: [] := rfl
      have h2 := splitWs_word_append w hnw [] [] [] h1
      rw [List.append_nil] at h2
      show wordsOf (joinWords [w]) = [w]
      rw [show joinWords [w] = w from rfl]
      unfold wordsOf
      rw [h2, List.filter_cons, if_pos hwtrue]
      rfl
    | cons w2 r2 =>
      have hrest : ∀ u ∈ w2 :: r2, u ≠ [] ∧ ∀ c ∈ u, isRustWhitespace c = false :=
        fun u hu => hwf u (List.mem_cons_of_mem w hu)
      have hsp1 : splitWs (' ' :: joinWords (w2 :: r2)) =
          [] :: splitWs (joinWords (w2 :: r2)) := by
        rw [splitWs_cons, splitWsStep_ws (by decide)]
      have h2 := splitWs_word_append w hnw (' ' :: joinWords (w2 :: r2)) []
        (splitWs (joinWords (w2 :: r2))) hsp1
      rw [List.append_nil] at h2
      rw [joinWords_cons w (w2 :: r2) (List.cons_ne_nil w2 r2)]
      unfold wordsOf
      rw [h2, List.filter_cons, if_pos hwtrue]
      have h3 := ih hrest
      unfold wordsOf at h3
      rw [h3]

/-- Helper: the join of a word list starting with a non-empty word
starts with that word's first character. -/
theorem joinWords_head (c : Char) (b : List Char) (ws : List (List Char)) :
    ∃ t, joinWords ((c :: b) :: ws) = c :: t := by
  cases ws with
  | nil => exact ⟨b, rfl⟩
  | cons a t2 => exact ⟨b ++ ' ' :: joinWords (a :: t2), rfl⟩

/-- Helper: the reversed join of well-formed words starts with a
non-whitespace character (the last character of the last word). -/
theorem joinWords_reverse :
    ∀ ws : List (List Char), ws ≠ [] →
      (∀ w ∈ ws, w ≠ [] ∧ ∀ c ∈ w, isRustWhitespace c = false) →
      ∃ d t, (joinWords ws).reverse = d :: t ∧ isRustWhitespace d = false := by
  intro ws
  induction ws with
  | nil => intro h _; exact absurd rfl h
  | cons w rest ih =>
    intro _ hwf
    obtain ⟨hne, hnw⟩ := hwf w (List.mem_cons_self w rest)
    cases rest with
    | nil =>
      cases hrev : w.reverse with
      | nil => exact absurd (by simpa using hrev) hne
      | cons d t =>
        refine ⟨d, t, ?_, ?_⟩
        · rw [show joinWords [w] = w from rfl, hrev]
        · have hd : d ∈ w := by
            rw [← List.mem_reverse, hrev]
            exact List.mem_cons_self d t
          exact hnw d hd
    | cons w2 r2 =>
      obtain ⟨d, t, hdt, hd⟩ := ih (List.cons_ne_nil w2 r2)
        (fun u hu => hwf u (List.mem_cons_of_mem w hu))
      refine ⟨d, t ++ [' '] ++ w.reverse, ?_, hd⟩
      rw [joinWords_cons w (w2 :: r2) (List.cons_ne_nil w2 r2),
        List.reverse_append, List.reverse_cons, hdt]
      simp

/-- Helper: the join of well-formed words is already trimmed. -/
theorem trimChars_joinWords (ws : List (List Char))
    (hwf : ∀ w ∈ ws, w ≠ [] ∧ ∀ c ∈ w, isRustWhitespace c = false) :
    trimChars (joinWords ws) = joinWords ws := by
  cases ws with
  | nil => rfl
  | cons w rest =>
    obtain ⟨hne, hnw⟩ := hwf w (List.mem_cons_self w rest)
    obtain ⟨c, b, rfl⟩ : ∃ c b, w = c :: b := by
      cases w with
      | nil => exact absurd rfl hne
      | cons c b => exact ⟨c, b, rfl⟩
    obtain ⟨t, hhead⟩ := joinWords_head c b rest
    have hc : isRustWhitespace c = false := hnw c (List.mem_cons_self c b)
    obtain ⟨d, t2, hrev, hd⟩ := joinWords_reverse ((c :: b) :: rest)
      (List.cons_ne_nil _ _) hwf
    have h1 : (joinWords ((c :: b) :: rest)).dropWhile isRustWhitespace =
        joinWords ((c :: b) :: rest) := by
      rw [hhead, List.dropWhile_cons]
      simp [hc]
    have h2 : ((joinWords ((c :: b) :: rest)).reverse).dropWhile isRustWhitespace =
        (joinWords ((c :: b) :: rest)).reverse := by
      rw [hrev, List.dropWhile_cons]
      simp [hd]
    unfold trimChars
    rw [h1, h2, List.reverse_reverse]

/-- Helper: the characters of a packed string. -/
theorem toList_mk (l : List Char) : (String.mk l).toList = l := rfl

/-- C6 counterexample: `clean_text` is not idempotent: on the
doubly-encoded input `&amp;amp;` a first application yields `&amp;` and
a second application decodes again, yielding `&`. -/
theorem clean_text_counterexample :
    clean_text (clean_text "&amp;amp;") ≠ clean_text "&amp;amp;" := by decide

/-- C6 amended: `clean_text` is idempotent on every input whose cleaned
form decodes to itself (no residual HTML entities); the
whitespace-collapse-and-trim part is idempotent unconditionally, and
only a cleaned output still containing a decodable entity (as arises
from doubly-encoded input) breaks idempotence. -/
theorem clean_text_conditional_idempotent (s : String)
    (h : decodeStr (clean_text s) = clean_text s) :
    clean_text (clean_text s) = clean_text s := by
  have hwf := fun w hw => wordsOf_wf (decodeEntities s.toList) w hw
  have htrim : trimChars (joinWords (wordsOf (decodeEntities s.toList))) =
      joinWords (wordsOf (decodeEntities s.toList)) :=
    trimChars_joinWords _ hwf
  have hclean : clean_text s =
      String.mk (joinWords (wordsOf (decodeEntities s.toList))) := by
    unfold clean_text
    rw [htrim]
  have hdec : decodeEntities (joinWords (wordsOf (decodeEntities s.toList))) =
      joinWords (wordsOf (decodeEntities s.toList)) := by
    have h2 := congrArg String.toList h
    rw [hclean] at h2
    simpa [decodeStr, toList_mk] using h2
  rw [hclean]
  unfold clean_text
  rw [toList_mk, hdec, wordsOf_joinWords _ hwf, htrim]

theorem clean_text_conditional_idempotent_witness :
    decodeStr (clean_text "  a &amp;  b ") = clean_text "  a &amp;  b " ∧
    clean_text (clean_text "  a &amp;  b ") = clean_text "  a &amp;  b " :=
  ⟨by decide, clean_text_conditional_idempotent "  a &amp;  b " (by decide)⟩

end WatchMonitor
